import Mathlib

/-!
Shallow embedding of the MAPPATORE calibration / measurement core
(`src/unnamed/part_000`, `src/types.ts`).

JS numbers are modelled by exact reals `ℝ`.  The JS remainder operator `%`
(truncated remainder, sign of the dividend) is modelled by `jsRem`.
`Math.atan2 x y` is modelled through `Complex.arg` of the complex number with
real part `y` and imaginary part `x` (so the result lies in `(-π, π]`, with
`atan2 0 0 = 0`, matching `Math.atan2` on positive zeros).
JS truthiness of the React state variables is modelled explicitly: a `number`
state is falsy when it is `null` or `0`, hence `Option ℝ` with the `0` case
checked; an object state is truthy whenever non-`null`, hence `Option _`.
-/

namespace Mappatore

noncomputable section

/-- Pixel coordinates, image top-left origin, y growing downwards (`types.ts`). -/
@[ext]
structure PixelCoords where
  x : ℝ
  y : ℝ

/-- Real-world Cartesian coordinates, y growing upwards (`types.ts`). -/
@[ext]
structure RealCoords where
  x : ℝ
  y : ℝ

/-- A stored, named point (`types.ts`). -/
structure Point where
  name : String
  pixelCoords : PixelCoords
  realCoords : RealCoords
  distance : ℝ
  bearing : ℝ

/-- A stored, named polygonal area (`types.ts`). -/
structure Area where
  name : String
  points : List Point
  realArea : ℝ

/-- The interaction states (`types.ts`, string enum `AppState`). -/
inductive AppState where
  | UPLOAD_IMAGE
  | CALIBRATE_START
  | CALIBRATE_END
  | SET_ORIGIN
  | READY
  | NAMING_POINT
  | DEFINING_AREA
  | NAMING_AREA
deriving DecidableEq

/-- The runtime string value of each `AppState` member: `AppState` is a string
enum in `types.ts`, so relational operators on it compare these strings. -/
def stateName : AppState → String
  | .UPLOAD_IMAGE => "UPLOAD_IMAGE"
  | .CALIBRATE_START => "CALIBRATE_START"
  | .CALIBRATE_END => "CALIBRATE_END"
  | .SET_ORIGIN => "SET_ORIGIN"
  | .READY => "READY"
  | .NAMING_POINT => "NAMING_POINT"
  | .DEFINING_AREA => "DEFINING_AREA"
  | .NAMING_AREA => "NAMING_AREA"

/-- Truncation toward zero, the rounding used by the JS `%` operator. -/
def truncI (x : ℝ) : ℤ := if 0 ≤ x then ⌊x⌋ else ⌈x⌉

/-- The JS remainder `a % b`: `a - b * trunc (a / b)`.  For `b > 0` the result
has the sign of `a`, so it is negative for negative dividends. -/
def jsRem (a b : ℝ) : ℝ := a - b * truncI (a / b)

/-- Mathematical modulus into `[0, b)`, used to state the spec's
`mod 360, normalized into [0, 360)` for comparison with the code's `jsRem`. -/
def mathMod (a b : ℝ) : ℝ := a - b * ⌊a / b⌋

/-- `Math.atan2 x y`, the angle of the point `(y, x)` measured from the
positive first axis, in `(-π, π]`. -/
def atan2 (x y : ℝ) : ℝ := Complex.arg ⟨y, x⟩

/-- `calculateDistance` (`part_000:240-242`): Euclidean pixel distance. -/
def calculateDistance (p1 p2 : PixelCoords) : ℝ :=
  Real.sqrt ((p2.x - p1.x) ^ 2 + (p2.y - p1.y) ^ 2)

/-- `calculateRealCoords` (`part_000:284-292`).  The guard
`if (!origin || !pixelsPerMeter) return { x: 0, y: 0 };` is falsy-based:
it fires when either state is `null` and also when `pixelsPerMeter === 0`. -/
def calculateRealCoords (origin : Option PixelCoords) (pixelsPerMeter : Option ℝ)
    (clickPos : PixelCoords) : RealCoords :=
  match origin, pixelsPerMeter with
  | some o, some s =>
      if s = 0 then ⟨0, 0⟩
      else ⟨(clickPos.x - o.x) / s, (o.y - clickPos.y) / s⟩
  | _, _ => ⟨0, 0⟩

/-- `calculateDistanceAndBearing` (`part_000:294-305`): distance from the
origin and bearing `(angleDeg - rotation + 360) % 360` with the JS `%`. -/
def calculateDistanceAndBearing (realCoords : RealCoords) (rotation : ℝ) : ℝ × ℝ :=
  let distance := Real.sqrt (realCoords.x ^ 2 + realCoords.y ^ 2)
  let angleRad := atan2 realCoords.x realCoords.y
  let angleDeg := angleRad * (180 / Real.pi)
  let bearing := jsRem (angleDeg - rotation + 360) 360
  (distance, bearing)

/-- Modelled from the spec for comparison with the code: the bearing with the
normalization `(rawBearingDeg - referenceDirectionDeg + 360) mod 360` taken as
the mathematical modulus into `[0, 360)`. -/
def specBearing (r : RealCoords) (ref : ℝ) : ℝ :=
  mathMod (atan2 r.x r.y * (180 / Real.pi) - ref + 360) 360

/-- `calculatePointData` (`part_000:307-311`). -/
def calculatePointData (origin : Option PixelCoords) (pixelsPerMeter : Option ℝ)
    (northRotation : ℝ) (pixelCoords : PixelCoords) : RealCoords × ℝ × ℝ :=
  let realCoords := calculateRealCoords origin pixelsPerMeter pixelCoords
  let db := calculateDistanceAndBearing realCoords northRotation
  (realCoords, db.1, db.2)

/-- Total indexing into a vertex list, used to express the loop of
`calculatePolygonArea`; inside the loop every index is in range. -/
def nthRC (l : List RealCoords) (i : ℕ) : RealCoords := (l[i]?).getD ⟨0, 0⟩

/-- One iteration of the `calculatePolygonArea` loop (`part_000:411-415`):
`area += coords[i].x * coords[j].y; area -= coords[j].x * coords[i].y` with
`j = (i + 1) % n`. -/
def shoelaceTerm (coords : List RealCoords) (i : ℕ) : ℝ :=
  (nthRC coords i).x * (nthRC coords ((i + 1) % coords.length)).y
    - (nthRC coords ((i + 1) % coords.length)).x * (nthRC coords i).y

/-- The accumulated loop value of `calculatePolygonArea`. -/
def shoelaceSum (coords : List RealCoords) : ℝ :=
  ∑ i in Finset.range coords.length, shoelaceTerm coords i

/-- `calculatePolygonArea` (`part_000:407-417`): `0` for fewer than three
vertices, else `Math.abs (area / 2)`. -/
def calculatePolygonArea (coords : List RealCoords) : ℝ :=
  if coords.length < 3 then 0 else |shoelaceSum coords / 2|

/-- The React component state relevant to the interaction state machine
(`part_000:14-46`), with JS `null` rendered as `none`. -/
structure Model where
  appState : AppState
  points : List Point
  areas : List Area
  calibrationPoints : List PixelCoords
  pixelsPerMeter : Option ℝ
  origin : Option PixelCoords
  knownDistance : ℝ
  tempPoint : Option PixelCoords
  newPointName : String
  currentAreaPoints : List Point
  newAreaName : String
  northRotation : ℝ
  mouseRealCoords : Option RealCoords
  mousePixelCoords : Option PixelCoords

/-- The initial component state (`part_000:14-46`). -/
def baseModel : Model where
  appState := .UPLOAD_IMAGE
  points := []
  areas := []
  calibrationPoints := []
  pixelsPerMeter := none
  origin := none
  knownDistance := 10
  tempPoint := none
  newPointName := ""
  currentAreaPoints := []
  newAreaName := ""
  northRotation := 0
  mouseRealCoords := none
  mousePixelCoords := none

/-- `handleImageClick` (`part_000:244-282`), as a transition on `Model` for a
resolved click coordinate.  In `CALIBRATE_END` the code reads
`calibrationPoints[0]`; in that state the list holds exactly the first
calibration click, modelled totally by a `(0,0)` default. -/
def handleImageClick (m : Model) (coords : PixelCoords) : Model :=
  match m.appState with
  | .CALIBRATE_START =>
      { m with calibrationPoints := [coords], appState := .CALIBRATE_END }
  | .CALIBRATE_END =>
      let firstPoint := m.calibrationPoints.getD 0 ⟨0, 0⟩
      let pixelDistance := calculateDistance firstPoint coords
      { m with pixelsPerMeter := some (pixelDistance / m.knownDistance),
               calibrationPoints := m.calibrationPoints ++ [coords],
               appState := .SET_ORIGIN }
  | .SET_ORIGIN =>
      { m with origin := some coords, appState := .READY }
  | .READY =>
      { m with tempPoint := some coords,
               newPointName := "Punto " ++ toString (m.points.length + 1),
               appState := .NAMING_POINT }
  | .DEFINING_AREA =>
      let pd := calculatePointData m.origin m.pixelsPerMeter m.northRotation coords
      { m with currentAreaPoints := m.currentAreaPoints ++
          [{ name := "V" ++ toString (m.currentAreaPoints.length + 1),
             pixelCoords := coords, realCoords := pd.1,
             distance := pd.2.1, bearing := pd.2.2 }] }
  | _ => m

/-- Lexicographic comparison of character lists by code unit, the semantics of
the JS `<` operator on (ASCII) strings: a string is smaller when its first
differing character is smaller, and a proper prefix is smaller. -/
def strLtb : List Char → List Char → Bool
  | _, [] => false
  | [], _ :: _ => true
  | a :: as, b :: bs =>
      if a < b then true
      else if b < a then false
      else strLtb as bs

/-- `handleImageMouseMove` (`part_000:393-405`).  The guard
`appState < AppState.READY` compares the enum's runtime strings with the JS
relational operator, i.e. lexicographically by code unit. -/
def handleImageMouseMove (m : Model) (coords : Option PixelCoords) : Model :=
  let m1 := { m with mousePixelCoords := coords }
  if strLtb (stateName m.appState).data (stateName AppState.READY).data then
    { m1 with mouseRealCoords := none }
  else
    match coords with
    | some c =>
        { m1 with mouseRealCoords := some (calculateRealCoords m.origin m.pixelsPerMeter c) }
    | none => m1

/-- `handleFinishArea` (`part_000:429-436`): with fewer than three captured
vertices it only shows an alert (an external effect) and returns, leaving the
state untouched; no exception is thrown. -/
def handleFinishArea (m : Model) : Model :=
  if m.currentAreaPoints.length < 3 then m
  else { m with newAreaName := "Area " ++ toString (m.areas.length + 1),
                appState := .NAMING_AREA }

/-- The `setPoints(currentPoints.map ...)` mapping inside the `northRotation`
effect (`part_000:166-169`): each stored point keeps every field and gets its
bearing recomputed from its stored `realCoords` at the new rotation.  The
effect's guard lives in `recomputeBearingsEffect`. -/
def recomputeBearings (pts : List Point) (rotation : ℝ) : List Point :=
  pts.map fun p =>
    { p with bearing := (calculateDistanceAndBearing p.realCoords rotation).2 }

open Classical in
/-- The full `northRotation` effect (`part_000:164-170`), including its guard
`if (points.length === 0 || !origin || !pixelsPerMeter) return;` — falsy-based,
so the recompute is skipped when there is no point, no origin, or the stored
scale is `null` or `0`. -/
def recomputeBearingsEffect (m : Model) : Model :=
  if m.points = [] ∨ m.origin = none ∨ m.pixelsPerMeter = none ∨
      m.pixelsPerMeter = some 0 then m
  else { m with points := recomputeBearings m.points m.northRotation }

/-- Default point used for total list indexing in theorem statements. -/
def dfltPoint : Point := ⟨"", ⟨0, 0⟩, ⟨0, 0⟩, 0, 0⟩

/-- A model in `CALIBRATE_END` holding the first calibration click `p`,
with the initial known distance `10` (`part_000:22`). -/
def calibModel (p : PixelCoords) : Model :=
  { baseModel with appState := .CALIBRATE_END, calibrationPoints := [p] }

/-- A calibrated model in `DEFINING_AREA` holding two in-progress vertices. -/
def areaModel : Model :=
  { baseModel with appState := .DEFINING_AREA,
                   pixelsPerMeter := some 10, origin := some ⟨50, 50⟩,
                   currentAreaPoints := [dfltPoint, dfltPoint] }

/-- A model in `SET_ORIGIN`: scale already set, origin still unset. -/
def setOriginModel : Model :=
  { baseModel with appState := .SET_ORIGIN, pixelsPerMeter := some 10 }

/-- A stored point due north of the origin whose bearing field is consistent
with reference direction `0`. -/
def samplePoint : Point :=
  { name := "Punto 1", pixelCoords := ⟨50, 40⟩, realCoords := ⟨0, 1⟩,
    distance := 1, bearing := (calculateDistanceAndBearing ⟨0, 1⟩ 0).2 }

/-- A properly calibrated `READY` model owning one stored point whose bearing
is consistent with reference direction `0`, right after the compass was
dragged from `0` by `90`. -/
def rotSampleModel : Model :=
  { baseModel with appState := .READY, points := [samplePoint],
                   origin := some ⟨50, 50⟩, pixelsPerMeter := some 10,
                   northRotation := 0 + 90 }

/-- The point the program saves while the scale is the degenerate `0`:
`calculateRealCoords` falls back to `(0, 0)`, whose bearing at reference
direction `0` is the stored value. -/
def degPoint : Point :=
  { name := "Punto 1", pixelCoords := ⟨50, 50⟩, realCoords := ⟨0, 0⟩,
    distance := 0, bearing := (calculateDistanceAndBearing ⟨0, 0⟩ 0).2 }

/-- The model reached by a degenerate calibration (stored scale `0`, see the
corrected claim C2), an origin click, one saved point, and a compass drag
from `0` by `90`. -/
def degSampleModel : Model :=
  { baseModel with appState := .READY, points := [degPoint],
                   origin := some ⟨50, 50⟩, pixelsPerMeter := some 0,
                   northRotation := 0 + 90 }

end

theorem truncI_of_nonneg {x : ℝ} (h : 0 ≤ x) : truncI x = ⌊x⌋ := if_pos h

theorem truncI_of_neg {x : ℝ} (h : x < 0) : truncI x = ⌈x⌉ := if_neg (not_le.mpr h)

theorem jsRem_nonneg {a b : ℝ} (ha : 0 ≤ a) (hb : 0 < b) : 0 ≤ jsRem a b := by
  have hq : 0 ≤ a / b := div_nonneg ha hb.le
  unfold jsRem
  rw [truncI_of_nonneg hq]
  have h1 : (⌊a / b⌋ : ℝ) ≤ a / b := Int.floor_le _
  have h2 : b * (⌊a / b⌋ : ℝ) ≤ b * (a / b) := mul_le_mul_of_nonneg_left h1 hb.le
  have h3 : b * (a / b) = a := by field_simp
  linarith

theorem jsRem_lt {a b : ℝ} (hb : 0 < b) : jsRem a b < b := by
  unfold jsRem
  have h3 : b * (a / b) = a := by field_simp
  by_cases hq : 0 ≤ a / b
  · rw [truncI_of_nonneg hq]
    have h1 : a / b < ⌊a / b⌋ + 1 := Int.lt_floor_add_one _
    have h2 : b * (a / b) < b * ((⌊a / b⌋ : ℝ) + 1) := by
      exact mul_lt_mul_of_pos_left h1 hb
    rw [h3, mul_add, mul_one] at h2
    linarith
  · push_neg at hq
    rw [truncI_of_neg hq]
    have h1 : a / b ≤ ⌈a / b⌉ := Int.le_ceil _
    have h2 : b * (a / b) ≤ b * (⌈a / b⌉ : ℝ) := mul_le_mul_of_nonneg_left h1 hb.le
    rw [h3] at h2
    linarith

theorem neg_lt_jsRem {a b : ℝ} (hb : 0 < b) : -b < jsRem a b := by
  unfold jsRem
  have h3 : b * (a / b) = a := by field_simp
  by_cases hq : 0 ≤ a / b
  · rw [truncI_of_nonneg hq]
    have h1 : (⌊a / b⌋ : ℝ) ≤ a / b := Int.floor_le _
    have h2 : b * (⌊a / b⌋ : ℝ) ≤ b * (a / b) := mul_le_mul_of_nonneg_left h1 hb.le
    rw [h3] at h2
    linarith
  · push_neg at hq
    rw [truncI_of_neg hq]
    have h1 : (⌈a / b⌉ : ℝ) < a / b + 1 := Int.ceil_lt_add_one _
    have h2 : b * (⌈a / b⌉ : ℝ) < b * (a / b + 1) := mul_lt_mul_of_pos_left h1 hb
    rw [mul_add, mul_one, h3] at h2
    linarith

theorem jsRem_sub_int (a b : ℝ) : ∃ k : ℤ, jsRem a b = a - b * k :=
  ⟨truncI (a / b), rfl⟩

theorem jsRem_of_nonneg_of_lt {a b : ℝ} (h0 : 0 ≤ a) (hab : a < b) : jsRem a b = a := by
  have hb : 0 < b := lt_of_le_of_lt h0 hab
  have hfl : ⌊a / b⌋ = 0 := by
    rw [Int.floor_eq_zero_iff]
    constructor
    · exact div_nonneg h0 hb.le
    · rw [div_lt_iff₀ hb, one_mul]; exact hab
  unfold jsRem
  rw [truncI_of_nonneg (div_nonneg h0 hb.le), hfl]
  push_cast
  ring

theorem jsRem_of_neg_of_gt {a b : ℝ} (h0 : a < 0) (hab : -b < a) : jsRem a b = a := by
  have hb : 0 < b := by linarith
  have hq : a / b < 0 := div_neg_of_neg_of_pos h0 hb
  have hcl : ⌈a / b⌉ = 0 := by
    rw [Int.ceil_eq_zero_iff]
    constructor
    · rw [lt_div_iff₀ hb]
      linarith
    · exact hq.le
  unfold jsRem
  rw [truncI_of_neg hq, hcl]
  push_cast
  ring

theorem jsRem_once {a b : ℝ} (hb : 0 < b) (h1 : b ≤ a) (h2 : a < 2 * b) :
    jsRem a b = a - b := by
  have hq : 0 ≤ a / b := div_nonneg (hb.le.trans h1) hb.le
  have hfl : ⌊a / b⌋ = 1 := by
    rw [Int.floor_eq_iff]
    constructor
    · push_cast
      rw [le_div_iff₀ hb, one_mul]
      exact h1
    · push_cast
      rw [div_lt_iff₀ hb]
      linarith
  unfold jsRem
  rw [truncI_of_nonneg hq, hfl]
  push_cast
  ring

theorem jsRem_eq_mathMod_of_nonneg {a b : ℝ} (ha : 0 ≤ a) (hb : 0 < b) :
    jsRem a b = mathMod a b := by
  unfold jsRem mathMod
  rw [truncI_of_nonneg (div_nonneg ha hb.le)]

theorem atan2_le_pi (x y : ℝ) : atan2 x y ≤ Real.pi := Complex.arg_le_pi _

theorem neg_pi_lt_atan2 (x y : ℝ) : -Real.pi < atan2 x y := Complex.neg_pi_lt_arg _

theorem atan2_zero_one : atan2 0 1 = 0 := by
  have h : (⟨1, 0⟩ : ℂ) = 1 := Complex.ext rfl rfl
  unfold atan2
  rw [h, Complex.arg_one]

theorem bearing_def (r : RealCoords) (rot : ℝ) :
    (calculateDistanceAndBearing r rot).2 =
      jsRem (atan2 r.x r.y * (180 / Real.pi) - rot + 360) 360 := rfl

theorem distance_def (r : RealCoords) (rot : ℝ) :
    (calculateDistanceAndBearing r rot).1 = Real.sqrt (r.x ^ 2 + r.y ^ 2) := rfl

theorem angleDeg_gt_neg_180 (x y : ℝ) : -180 < atan2 x y * (180 / Real.pi) := by
  have hpi : (0 : ℝ) < 180 / Real.pi := div_pos (by norm_num) Real.pi_pos
  have h1 : -Real.pi * (180 / Real.pi) < atan2 x y * (180 / Real.pi) :=
    mul_lt_mul_of_pos_right (neg_pi_lt_atan2 x y) hpi
  have h2 : -Real.pi * (180 / Real.pi) = -180 := by
    field_simp
    ring
  linarith

/-- Claim C1, amended: the bearing returned by `calculateDistanceAndBearing`
always lies in the open interval `(-360, 360)`, and it lies in `[0, 360)`
whenever the reference direction is at most `180`; for larger reference
directions (the compass drag produces values up to `270`) the JS `%` operator
keeps the sign of its dividend, so the bearing can be negative. -/
theorem bearing_range_amended (r : RealCoords) (rot : ℝ) :
    (-360 < (calculateDistanceAndBearing r rot).2 ∧
      (calculateDistanceAndBearing r rot).2 < 360) ∧
    (rot ≤ 180 →
      0 ≤ (calculateDistanceAndBearing r rot).2 ∧
      (calculateDistanceAndBearing r rot).2 < 360) := by
  rw [bearing_def]
  refine ⟨⟨neg_lt_jsRem (by norm_num), jsRem_lt (by norm_num)⟩, fun hrot => ?_⟩
  have hdeg := angleDeg_gt_neg_180 r.x r.y
  have ha : 0 ≤ atan2 r.x r.y * (180 / Real.pi) - rot + 360 := by linarith
  exact ⟨jsRem_nonneg ha (by norm_num), jsRem_lt (by norm_num)⟩

/-- Witness for `bearing_range_amended` at `realCoords = (3, 4)`,
reference direction `90`. -/
theorem bearing_range_amended_witness :
    0 ≤ (calculateDistanceAndBearing ⟨3, 4⟩ 90).2 ∧
      (calculateDistanceAndBearing ⟨3, 4⟩ 90).2 < 360 :=
  (bearing_range_amended ⟨3, 4⟩ 90).2 (by norm_num)

theorem atan2_neg_one_neg_one :
    atan2 (-1) (-1) * (180 / Real.pi) = -135 := by
  have habs : Complex.abs ⟨-1, -1⟩ = Real.sqrt 2 := by
    rw [Complex.abs_apply, Complex.normSq_mk]
    norm_num
  have harg : Complex.arg ⟨-1, -1⟩ =
      Real.arcsin ((-(⟨-1, -1⟩ : ℂ)).im / Complex.abs ⟨-1, -1⟩) - Real.pi :=
    Complex.arg_of_re_neg_of_im_neg (by norm_num) (by norm_num)
  have him : (-(⟨-1, -1⟩ : ℂ)).im = 1 := by
    simp
  have hdiv : (1 : ℝ) / Real.sqrt 2 = Real.sqrt 2 / 2 := by
    rw [div_eq_div_iff (Real.sqrt_pos.mpr (by norm_num)).ne' (by norm_num)]
    rw [one_mul, Real.mul_self_sqrt (by norm_num)]
  have hasin : Real.arcsin (Real.sqrt 2 / 2) = Real.pi / 4 := by
    rw [← Real.sin_pi_div_four]
    exact Real.arcsin_sin (by linarith [Real.pi_pos]) (by linarith [Real.pi_pos])
  have : atan2 (-1) (-1) = Real.pi / 4 - Real.pi := by
    unfold atan2
    rw [harg, him, habs, hdiv, hasin]
  rw [this]
  field_simp
  ring

/-- Claim C1 fails as stated: at `realCoords = (-1, -1)` (raw bearing
`-135`) with reference direction `270` (reachable by the compass drag, whose
range is `(-90, 270]`), the code's bearing is `-135 - 270 + 360 = -45`
under the JS `%`, which is not in `[0, 360)`. -/
theorem bearing_range_counterexample :
    (calculateDistanceAndBearing ⟨-1, -1⟩ 270).2 = -45 ∧
      (calculateDistanceAndBearing ⟨-1, -1⟩ 270).2 < 0 := by
  have h : (calculateDistanceAndBearing ⟨-1, -1⟩ 270).2 = -45 := by
    rw [bearing_def]
    have hd : atan2 (-1 : ℝ) (-1) * (180 / Real.pi) = -135 := atan2_neg_one_neg_one
    have : atan2 (-1 : ℝ) (-1) * (180 / Real.pi) - 270 + 360 = -45 := by
      rw [hd]; norm_num
    rw [this]
    exact jsRem_of_neg_of_gt (by norm_num) (by norm_num)
  exact ⟨h, by rw [h]; norm_num⟩

/-- Claim C2 fails as stated: a second calibration click coinciding with the
first (both at pixel `(0, 0)`, known distance `10`) is not rejected by
`handleImageClick`: the zero scale `0 / 10 = 0` is stored in `pixelsPerMeter`
and the state advances to `SET_ORIGIN` instead of remaining `CALIBRATE_END`. -/
theorem degenerate_calibration_counterexample :
    (handleImageClick (calibModel ⟨0, 0⟩) ⟨0, 0⟩).pixelsPerMeter = some 0 ∧
    (handleImageClick (calibModel ⟨0, 0⟩) ⟨0, 0⟩).appState = AppState.SET_ORIGIN := by
  constructor
  · simp [handleImageClick, calibModel, baseModel, calculateDistance]
  · rfl

/-- Claim C2, amended: the second calibration click is never rejected.  When
it coincides with the first click (with a positive known distance, where JS
`0 / d = 0` agrees with the exact model), the zero pixel distance makes
`handleImageClick` store the degenerate scale `0` and advance the state to
`SET_ORIGIN`; nothing keeps the state at `CALIBRATE_END`. -/
theorem degenerate_calibration_amended (m : Model) (p : PixelCoords)
    (hstate : m.appState = .CALIBRATE_END)
    (hcal : m.calibrationPoints = [p])
    (hd : 0 < m.knownDistance) :
    (handleImageClick m p).pixelsPerMeter = some 0 ∧
    (handleImageClick m p).appState = .SET_ORIGIN := by
  obtain ⟨st, pts, ars, cal, ppm, og, kd, tp, npn, cap, nan, nr, mrc, mpc⟩ := m
  dsimp only at hstate hcal hd
  subst hstate
  subst hcal
  refine ⟨?_, rfl⟩
  simp [handleImageClick, calculateDistance]

/-- Witness for `degenerate_calibration_amended` at first click `(3, 4)`. -/
theorem degenerate_calibration_amended_witness :
    (handleImageClick (calibModel ⟨3, 4⟩) ⟨3, 4⟩).pixelsPerMeter = some 0 ∧
    (handleImageClick (calibModel ⟨3, 4⟩) ⟨3, 4⟩).appState = .SET_ORIGIN :=
  degenerate_calibration_amended (calibModel ⟨3, 4⟩) ⟨3, 4⟩ rfl rfl (by norm_num [calibModel, baseModel])

/-- Claim C3 fails as stated: with neither scale nor origin set,
`calculateRealCoords` silently returns the zeroed coordinates `(0, 0)` for
the pixel `(5, 7)`; its return type `RealCoords` has no failure channel, so
no typed failure reaches the caller. -/
theorem uncalibrated_conversion_counterexample :
    calculateRealCoords none none ⟨5, 7⟩ = ⟨0, 0⟩ := rfl

/-- Claim C3, amended: whenever the origin or the scale is still unset,
`calculateRealCoords` returns the fallback value `(0, 0)` — indistinguishable
from the true conversion of the origin pixel — rather than reporting a typed
failure. -/
theorem uncalibrated_conversion_amended (origin : Option PixelCoords)
    (s : Option ℝ) (p : PixelCoords) (h : origin = none ∨ s = none) :
    calculateRealCoords origin s p = ⟨0, 0⟩ := by
  rcases h with h | h
  · subst h
    rfl
  · subst h
    cases origin with
    | none => rfl
    | some o => rfl

/-- Witness for `uncalibrated_conversion_amended`: origin set, scale unset. -/
theorem uncalibrated_conversion_amended_witness :
    calculateRealCoords (some ⟨1, 2⟩) none ⟨5, 7⟩ = ⟨0, 0⟩ :=
  uncalibrated_conversion_amended (some ⟨1, 2⟩) none ⟨5, 7⟩ (Or.inr rfl)

/-- Claim C5: once a positive scale and an origin are set,
`calculateRealCoords` computes `((p.x - origin.x) / scale,
(origin.y - p.y) / scale)`, and the origin pixel itself maps to `(0, 0)`. -/
theorem toReal_formula (o : PixelCoords) (s : ℝ) (p : PixelCoords) (hs : 0 < s) :
    calculateRealCoords (some o) (some s) p = ⟨(p.x - o.x) / s, (o.y - p.y) / s⟩ ∧
    calculateRealCoords (some o) (some s) o = ⟨0, 0⟩ := by
  have hne : s ≠ 0 := hs.ne'
  constructor
  · simp [calculateRealCoords, hne]
  · simp [calculateRealCoords, hne]

/-- Witness for `toReal_formula`: scale `10`, origin `(50, 50)`,
click `(150, 50)` (the spec's scenario inputs). -/
theorem toReal_formula_witness :
    calculateRealCoords (some ⟨50, 50⟩) (some 10) ⟨150, 50⟩ = ⟨(150 - 50) / 10, (50 - 50) / 10⟩ ∧
    calculateRealCoords (some ⟨50, 50⟩) (some 10) ⟨50, 50⟩ = ⟨0, 0⟩ :=
  toReal_formula ⟨50, 50⟩ 10 ⟨150, 50⟩ (by norm_num)

/-- Claim C9: in `CALIBRATE_END` with first click `p1`, a second click at
`p2 ≠ p1` with positive known distance stores the scale
`euclideanDistance(p1, p2) / knownDistance`, which is strictly positive. -/
theorem calibration_scale_formula (m : Model) (p1 p2 : PixelCoords)
    (hstate : m.appState = .CALIBRATE_END)
    (hcal : m.calibrationPoints = [p1])
    (hne : p1 ≠ p2) (hd : 0 < m.knownDistance) :
    (handleImageClick m p2).pixelsPerMeter =
      some (calculateDistance p1 p2 / m.knownDistance) ∧
    0 < calculateDistance p1 p2 / m.knownDistance := by
  have hpos : 0 < calculateDistance p1 p2 := by
    unfold calculateDistance
    apply Real.sqrt_pos.mpr
    have hxy : p2.x - p1.x ≠ 0 ∨ p2.y - p1.y ≠ 0 := by
      by_contra hc
      push_neg at hc
      obtain ⟨hx, hy⟩ := hc
      exact hne (PixelCoords.ext (sub_eq_zero.mp hx).symm (sub_eq_zero.mp hy).symm)
    rcases hxy with h | h
    · have h1 : 0 < (p2.x - p1.x) ^ 2 := sq_pos_of_ne_zero h
      have h2 : 0 ≤ (p2.y - p1.y) ^ 2 := sq_nonneg _
      linarith
    · have h1 : 0 < (p2.y - p1.y) ^ 2 := sq_pos_of_ne_zero h
      have h2 : 0 ≤ (p2.x - p1.x) ^ 2 := sq_nonneg _
      linarith
  obtain ⟨st, pts, ars, cal, ppm, og, kd, tp, npn, cap, nan, nr, mrc, mpc⟩ := m
  dsimp only at hstate hcal hd ⊢
  subst hstate
  subst hcal
  refine ⟨?_, div_pos hpos hd⟩
  simp [handleImageClick]

/-- Witness for `calibration_scale_formula`: clicks `(0, 0)` and `(6, 8)`
with known distance `10` give scale `1 > 0`. -/
theorem calibration_scale_formula_witness :
    (handleImageClick (calibModel ⟨0, 0⟩) ⟨6, 8⟩).pixelsPerMeter =
      some (calculateDistance ⟨0, 0⟩ ⟨6, 8⟩ / (calibModel ⟨0, 0⟩).knownDistance) ∧
    0 < calculateDistance ⟨0, 0⟩ ⟨6, 8⟩ / (calibModel ⟨0, 0⟩).knownDistance :=
  calibration_scale_formula (calibModel ⟨0, 0⟩) ⟨0, 0⟩ ⟨6, 8⟩ rfl rfl
    (by norm_num [PixelCoords.mk.injEq]) (by norm_num [calibModel, baseModel])

/-- Claim C8: in `DEFINING_AREA`, the finish-area command with fewer than
three in-progress vertices leaves the model untouched — the state stays
`DEFINING_AREA`, the vertex list is unchanged and no `Area` is appended; the
function returns normally (the alert is an external effect). -/
theorem finishArea_rejected (m : Model)
    (hstate : m.appState = .DEFINING_AREA)
    (hlen : m.currentAreaPoints.length < 3) :
    handleFinishArea m = m ∧
    (handleFinishArea m).appState = .DEFINING_AREA ∧
    (handleFinishArea m).currentAreaPoints = m.currentAreaPoints ∧
    (handleFinishArea m).areas = m.areas := by
  have h : handleFinishArea m = m := by
    unfold handleFinishArea
    rw [if_pos hlen]
  exact ⟨h, by rw [h]; exact hstate, by rw [h], by rw [h]⟩

/-- Witness for `finishArea_rejected` on a model with two vertices. -/
theorem finishArea_rejected_witness :
    handleFinishArea areaModel = areaModel ∧
    (handleFinishArea areaModel).appState = .DEFINING_AREA ∧
    (handleFinishArea areaModel).currentAreaPoints = areaModel.currentAreaPoints ∧
    (handleFinishArea areaModel).areas = areaModel.areas :=
  finishArea_rejected areaModel rfl (by simp [areaModel, baseModel])

/-- Claim C10: the mouse-move guard `appState < AppState.READY` compares the
enum's string values lexicographically, not in workflow order, so the preview
is suppressed exactly in `CALIBRATE_START`, `CALIBRATE_END`, `DEFINING_AREA`,
`NAMING_POINT` and `NAMING_AREA`, and computed in `READY`, `SET_ORIGIN` and
`UPLOAD_IMAGE`; in `SET_ORIGIN` the origin is still unset, so the computed
preview is `(0, 0)` for every mouse position. -/
theorem mouseMove_guard_lexicographic (m : Model) (c : PixelCoords) :
    ((m.appState = .CALIBRATE_START ∨ m.appState = .CALIBRATE_END ∨
        m.appState = .DEFINING_AREA ∨ m.appState = .NAMING_POINT ∨
        m.appState = .NAMING_AREA) →
      (handleImageMouseMove m (some c)).mouseRealCoords = none) ∧
    ((m.appState = .READY ∨ m.appState = .SET_ORIGIN ∨ m.appState = .UPLOAD_IMAGE) →
      (handleImageMouseMove m (some c)).mouseRealCoords =
        some (calculateRealCoords m.origin m.pixelsPerMeter c)) ∧
    (m.appState = .SET_ORIGIN → m.origin = none →
      (handleImageMouseMove m (some c)).mouseRealCoords = some ⟨0, 0⟩) := by
  refine ⟨fun h => ?_, fun h => ?_, fun h1 h2 => ?_⟩
  · unfold handleImageMouseMove
    rcases h with h | h | h | h | h <;>
      rw [h] <;> rw [if_pos (by decide)]
  · unfold handleImageMouseMove
    rcases h with h | h | h <;> rw [h] <;> rw [if_neg (by decide)]
  · unfold handleImageMouseMove
    rw [h1, if_neg (by decide), h2]
    cases hp : m.pixelsPerMeter <;> rfl

/-- Witness for `mouseMove_guard_lexicographic`: in `SET_ORIGIN` with the
scale already set, the preview for mouse position `(3, 4)` is `(0, 0)`. -/
theorem mouseMove_guard_lexicographic_witness :
    (handleImageMouseMove setOriginModel (some ⟨3, 4⟩)).mouseRealCoords = some ⟨0, 0⟩ :=
  (mouseMove_guard_lexicographic setOriginModel ⟨3, 4⟩).2.2 rfl rfl

theorem getD_map_point (f : Point → Point) (l : List Point) (i : ℕ)
    (h : i < l.length) :
    (l.map f).getD i dfltPoint = f (l.getD i dfltPoint) := by
  rw [List.getD_eq_getElem _ _ (by simpa using h), List.getElem_map,
    List.getD_eq_getElem _ _ h]

theorem recomputeBearings_pointwise (pts : List Point) (rot delta : ℝ)
    (hcons : ∀ p ∈ pts, p.bearing = (calculateDistanceAndBearing p.realCoords rot).2)
    (i : ℕ) (hi : i < pts.length) :
    ((recomputeBearings pts (rot + delta)).getD i dfltPoint).name =
        (pts.getD i dfltPoint).name ∧
    ((recomputeBearings pts (rot + delta)).getD i dfltPoint).pixelCoords =
        (pts.getD i dfltPoint).pixelCoords ∧
    ((recomputeBearings pts (rot + delta)).getD i dfltPoint).realCoords =
        (pts.getD i dfltPoint).realCoords ∧
    ((recomputeBearings pts (rot + delta)).getD i dfltPoint).distance =
        (pts.getD i dfltPoint).distance ∧
    ∃ k : ℤ, ((recomputeBearings pts (rot + delta)).getD i dfltPoint).bearing =
        (pts.getD i dfltPoint).bearing - delta + 360 * k := by
  have hmap : (recomputeBearings pts (rot + delta)).getD i dfltPoint =
      { pts.getD i dfltPoint with
        bearing := (calculateDistanceAndBearing (pts.getD i dfltPoint).realCoords
          (rot + delta)).2 } :=
    getD_map_point _ pts i hi
  have hp : pts.getD i dfltPoint ∈ pts := by
    rw [List.getD_eq_getElem _ _ hi]
    exact List.getElem_mem hi
  have hold := hcons _ hp
  rw [hmap]
  refine ⟨rfl, rfl, rfl, rfl, ?_⟩
  obtain ⟨k2, hk2⟩ := jsRem_sub_int
    (atan2 (pts.getD i dfltPoint).realCoords.x (pts.getD i dfltPoint).realCoords.y *
      (180 / Real.pi) - (rot + delta) + 360) 360
  obtain ⟨k1, hk1⟩ := jsRem_sub_int
    (atan2 (pts.getD i dfltPoint).realCoords.x (pts.getD i dfltPoint).realCoords.y *
      (180 / Real.pi) - rot + 360) 360
  refine ⟨k1 - k2, ?_⟩
  show (calculateDistanceAndBearing (pts.getD i dfltPoint).realCoords (rot + delta)).2 = _
  rw [bearing_def, hk2, hold, bearing_def, hk1]
  push_cast
  ring

/-- Claim C7 fails as stated: in the reachable state with one stored point
and the degenerate stored scale `0` (see the corrected claim C2), the
`northRotation` effect's falsy guard `!pixelsPerMeter` fires, the whole
effect is skipped after the compass drag by `90`, and the stored bearing does
not change by `-90` modulo `360` — it does not change at all. -/
theorem rotation_recompute_counterexample :
    recomputeBearingsEffect degSampleModel = degSampleModel ∧
    ¬∃ k : ℤ,
      ((recomputeBearingsEffect degSampleModel).points.getD 0 dfltPoint).bearing =
        (degSampleModel.points.getD 0 dfltPoint).bearing - 90 + 360 * k := by
  have heq : recomputeBearingsEffect degSampleModel = degSampleModel := by
    have hc : degSampleModel.pixelsPerMeter = some 0 := rfl
    unfold recomputeBearingsEffect
    rw [if_pos (Or.inr (Or.inr (Or.inr hc)))]
  refine ⟨heq, ?_⟩
  rintro ⟨k, hk⟩
  rw [heq] at hk
  have h360 : (360 : ℝ) * (k : ℝ) = 90 := by linarith
  have h4 : ((4 * k : ℤ) : ℝ) = ((1 : ℤ) : ℝ) := by push_cast; linarith
  have h41 : (4 * k : ℤ) = 1 := Int.cast_injective h4
  omega

/-- Claim C7, amended: the `northRotation` effect recomputes bearings only
under its guard — a non-empty point collection, an origin, and a truthy
(non-`null`, non-zero) stored scale.  Under that guard, after the reference
direction changes from `rot` by `delta`, every stored point's bearing is
recomputed from its already-stored `realCoords` (not from pixels): name,
pixel coordinates, real coordinates and distance are copied unchanged, and
each bearing consistent with `rot` changes by exactly `-delta` modulo `360`.
When the guard fails (e.g. the reachable degenerate scale `0`), the effect
is skipped and bearings are unchanged. -/
theorem rotation_recompute_amended (m : Model) (rot delta : ℝ)
    (hne : m.points ≠ [])
    (ho : m.origin ≠ none)
    (hs : m.pixelsPerMeter ≠ none)
    (hs0 : m.pixelsPerMeter ≠ some 0)
    (hrot : m.northRotation = rot + delta)
    (hcons : ∀ p ∈ m.points, p.bearing = (calculateDistanceAndBearing p.realCoords rot).2) :
    (recomputeBearingsEffect m).points.length = m.points.length ∧
    ∀ i, i < m.points.length →
      ((recomputeBearingsEffect m).points.getD i dfltPoint).name =
          (m.points.getD i dfltPoint).name ∧
      ((recomputeBearingsEffect m).points.getD i dfltPoint).pixelCoords =
          (m.points.getD i dfltPoint).pixelCoords ∧
      ((recomputeBearingsEffect m).points.getD i dfltPoint).realCoords =
          (m.points.getD i dfltPoint).realCoords ∧
      ((recomputeBearingsEffect m).points.getD i dfltPoint).distance =
          (m.points.getD i dfltPoint).distance ∧
      ∃ k : ℤ, ((recomputeBearingsEffect m).points.getD i dfltPoint).bearing =
          (m.points.getD i dfltPoint).bearing - delta + 360 * k := by
  have hguard : ¬(m.points = [] ∨ m.origin = none ∨ m.pixelsPerMeter = none ∨
      m.pixelsPerMeter = some 0) := by
    push_neg
    exact ⟨hne, ho, hs, hs0⟩
  have heff : (recomputeBearingsEffect m).points =
      recomputeBearings m.points (rot + delta) := by
    unfold recomputeBearingsEffect
    rw [if_neg hguard]
    dsimp only
    rw [hrot]
  constructor
  · rw [heff]
    simp [recomputeBearings]
  · intro i hi
    rw [heff]
    exact recomputeBearings_pointwise m.points rot delta hcons i hi

/-- Witness for `rotation_recompute_amended`: a calibrated model with one
stored point due north, compass dragged from `0` by `90`. -/
theorem rotation_recompute_amended_witness :
    (recomputeBearingsEffect rotSampleModel).points.length = rotSampleModel.points.length ∧
    ∀ i, i < rotSampleModel.points.length →
      ((recomputeBearingsEffect rotSampleModel).points.getD i dfltPoint).name =
          (rotSampleModel.points.getD i dfltPoint).name ∧
      ((recomputeBearingsEffect rotSampleModel).points.getD i dfltPoint).pixelCoords =
          (rotSampleModel.points.getD i dfltPoint).pixelCoords ∧
      ((recomputeBearingsEffect rotSampleModel).points.getD i dfltPoint).realCoords =
          (rotSampleModel.points.getD i dfltPoint).realCoords ∧
      ((recomputeBearingsEffect rotSampleModel).points.getD i dfltPoint).distance =
          (rotSampleModel.points.getD i dfltPoint).distance ∧
      ∃ k : ℤ, ((recomputeBearingsEffect rotSampleModel).points.getD i dfltPoint).bearing =
          (rotSampleModel.points.getD i dfltPoint).bearing - 90 + 360 * k :=
  rotation_recompute_amended rotSampleModel 0 90
    (by simp [rotSampleModel, baseModel])
    (by simp [rotSampleModel, baseModel])
    (by simp [rotSampleModel, baseModel])
    (by norm_num [rotSampleModel, baseModel])
    rfl
    (by
      intro p hp
      have hp2 : p ∈ [samplePoint] := hp
      rw [List.mem_singleton] at hp2
      subst hp2
      rfl)

theorem atan2_ten_zero : atan2 10 0 * (180 / Real.pi) = 90 := by
  have h : Complex.arg ⟨0, 10⟩ = Real.pi / 2 :=
    Complex.arg_eq_pi_div_two_iff.mpr ⟨rfl, by norm_num⟩
  unfold atan2
  rw [h]
  field_simp
  ring

/-- Claim C4 fails as stated: at `realCoords = (10, 0)` (raw bearing `90`)
with reference direction `500`, the code returns the JS remainder `-50`,
while the claimed formula `(rawBearingDeg - ref + 360) mod 360` evaluates to
`310`. -/
theorem bearing_formula_counterexample :
    (calculateDistanceAndBearing ⟨10, 0⟩ 500).2 = -50 ∧
    specBearing ⟨10, 0⟩ 500 = 310 ∧
    (calculateDistanceAndBearing ⟨10, 0⟩ 500).2 ≠ specBearing ⟨10, 0⟩ 500 := by
  have harg : atan2 (10 : ℝ) 0 * (180 / Real.pi) - 500 + 360 = -50 := by
    rw [atan2_ten_zero]
    norm_num
  have h1 : (calculateDistanceAndBearing ⟨10, 0⟩ 500).2 = -50 := by
    rw [bearing_def]
    dsimp only
    rw [harg]
    exact jsRem_of_neg_of_gt (by norm_num) (by norm_num)
  have hfloor : ⌊(-50 : ℝ) / 360⌋ = -1 := by
    rw [Int.floor_eq_iff]
    constructor
    · push_cast
      rw [le_div_iff₀ (by norm_num : (0:ℝ) < 360)]
      norm_num
    · push_cast
      rw [div_lt_iff₀ (by norm_num : (0:ℝ) < 360)]
      norm_num
  have h2 : specBearing ⟨10, 0⟩ 500 = 310 := by
    unfold specBearing mathMod
    dsimp only
    rw [harg, hfloor]
    push_cast
    ring
  exact ⟨h1, h2, by rw [h1, h2]; norm_num⟩

/-- Claim C4, amended: the distance is always `sqrt (x² + y²)`, and the
bearing agrees with the claimed `(rawBearingDeg - ref + 360) mod 360`
exactly when `rawBearingDeg - ref + 360` is non-negative (in particular for
every reference direction `≤ 180`); the code uses the JS `%`, which differs
from the mathematical modulus on negative dividends.  The spec's concrete
scenario (scale `10`, origin `(50, 50)`, click `(150, 50)`, reference
direction `0` giving realCoords `(10, 0)`, distance `10`, bearing `90`)
holds. -/
theorem bearing_formula_amended (r : RealCoords) (ref : ℝ)
    (h : 0 ≤ atan2 r.x r.y * (180 / Real.pi) - ref + 360) :
    (calculateDistanceAndBearing r ref).1 = Real.sqrt (r.x ^ 2 + r.y ^ 2) ∧
    (calculateDistanceAndBearing r ref).2 = specBearing r ref ∧
    calculateRealCoords (some ⟨50, 50⟩) (some 10) ⟨150, 50⟩ = ⟨10, 0⟩ ∧
    (calculateDistanceAndBearing ⟨10, 0⟩ 0).1 = 10 ∧
    (calculateDistanceAndBearing ⟨10, 0⟩ 0).2 = 90 := by
  refine ⟨distance_def r ref, ?_, ?_, ?_, ?_⟩
  · rw [bearing_def]
    unfold specBearing
    exact jsRem_eq_mathMod_of_nonneg h (by norm_num)
  · simp only [calculateRealCoords]
    rw [if_neg (by norm_num : (10 : ℝ) ≠ 0)]
    rw [RealCoords.mk.injEq]
    norm_num
  · rw [distance_def]
    dsimp only
    rw [show (10 : ℝ) ^ 2 + 0 ^ 2 = 10 ^ 2 by norm_num]
    exact Real.sqrt_sq (by norm_num)
  · rw [bearing_def]
    dsimp only
    have harg : atan2 (10 : ℝ) 0 * (180 / Real.pi) - 0 + 360 = 450 := by
      rw [atan2_ten_zero]
      norm_num
    rw [harg, jsRem_once (by norm_num) (by norm_num) (by norm_num)]
    norm_num

theorem nthRC_rotate (l : List RealCoords) (k i : ℕ) (h : i < l.length) :
    nthRC (l.rotate k) i = nthRC l ((i + k) % l.length) := by
  unfold nthRC
  rw [List.getElem?_rotate h]

theorem nthRC_reverse (l : List RealCoords) (i : ℕ) (h : i < l.length) :
    nthRC l.reverse i = nthRC l (l.length - 1 - i) := by
  unfold nthRC
  rw [List.getElem?_reverse h]

theorem shoelaceTerm_rotate (l : List RealCoords) (k i : ℕ) (h : i < l.length) :
    shoelaceTerm (l.rotate k) i = shoelaceTerm l ((i + k) % l.length) := by
  have hn : 0 < l.length := lt_of_le_of_lt (Nat.zero_le i) h
  unfold shoelaceTerm
  rw [List.length_rotate]
  rw [nthRC_rotate l k i h, nthRC_rotate l k _ (Nat.mod_lt _ hn)]
  rw [Nat.mod_add_mod, Nat.mod_add_mod]
  rw [show i + 1 + k = i + k + 1 by omega]

theorem sum_range_cycle (f : ℕ → ℝ) (n : ℕ) :
    ∑ i in Finset.range n, f ((i + 1) % n) = ∑ i in Finset.range n, f i := by
  cases n with
  | zero => simp
  | succ m =>
    rw [Finset.sum_range_succ, Nat.mod_self]
    have hcongr : ∑ i in Finset.range m, f ((i + 1) % (m + 1)) =
        ∑ i in Finset.range m, f (i + 1) := by
      apply Finset.sum_congr rfl
      intro i hi
      rw [Finset.mem_range] at hi
      rw [Nat.mod_eq_of_lt (by omega)]
    rw [hcongr]
    exact (Finset.sum_range_succ' f m).symm

theorem sum_range_cycle_add (f : ℕ → ℝ) (n k : ℕ) :
    ∑ i in Finset.range n, f ((i + k) % n) = ∑ i in Finset.range n, f i := by
  induction k with
  | zero =>
    apply Finset.sum_congr rfl
    intro i hi
    rw [Finset.mem_range] at hi
    rw [Nat.add_zero, Nat.mod_eq_of_lt hi]
  | succ k ih =>
    have hstep : ∀ i, f ((i + (k + 1)) % n) =
        (fun j => f ((j + k) % n)) ((i + 1) % n) := by
      intro i
      dsimp only
      rw [Nat.mod_add_mod]
      rw [show i + 1 + k = i + (k + 1) by omega]
    calc ∑ i in Finset.range n, f ((i + (k + 1)) % n)
        = ∑ i in Finset.range n, (fun j => f ((j + k) % n)) ((i + 1) % n) :=
          Finset.sum_congr rfl fun i _ => hstep i
      _ = ∑ i in Finset.range n, (fun j => f ((j + k) % n)) i :=
          sum_range_cycle (fun j => f ((j + k) % n)) n
      _ = ∑ i in Finset.range n, f i := ih

theorem shoelaceSum_rotate (l : List RealCoords) (k : ℕ) :
    shoelaceSum (l.rotate k) = shoelaceSum l := by
  unfold shoelaceSum
  rw [List.length_rotate]
  have h1 : ∑ i in Finset.range l.length, shoelaceTerm (l.rotate k) i =
      ∑ i in Finset.range l.length, shoelaceTerm l ((i + k) % l.length) := by
    apply Finset.sum_congr rfl
    intro i hi
    rw [Finset.mem_range] at hi
    exact shoelaceTerm_rotate l k i hi
  rw [h1]
  exact sum_range_cycle_add (shoelaceTerm l) l.length k

theorem shoelaceTerm_reverse (l : List RealCoords) (i : ℕ) (h : i < l.length) :
    shoelaceTerm l.reverse i =
      - shoelaceTerm l ((l.length - 1 - i + (l.length - 1)) % l.length) := by
  have hn : 0 < l.length := lt_of_le_of_lt (Nat.zero_le i) h
  unfold shoelaceTerm
  rw [List.length_reverse]
  rw [nthRC_reverse l i h, nthRC_reverse l _ (Nat.mod_lt _ hn)]
  rcases Nat.lt_or_ge (i + 1) l.length with hc | hc
  · have e1 : (i + 1) % l.length = i + 1 := Nat.mod_eq_of_lt hc
    have e2 : (l.length - 1 - i + (l.length - 1)) % l.length = l.length - 2 - i := by
      rw [Nat.mod_eq_sub_mod (by omega), Nat.mod_eq_of_lt (by omega)]
      omega
    have e3 : (l.length - 2 - i + 1) % l.length = l.length - 1 - i := by
      rw [Nat.mod_eq_of_lt (by omega)]
      omega
    rw [e1, e2, e3, show l.length - 1 - (i + 1) = l.length - 2 - i by omega]
    ring
  · have e1 : (i + 1) % l.length = 0 := by
      rw [show i + 1 = l.length by omega, Nat.mod_self]
    have e2 : (l.length - 1 - i + (l.length - 1)) % l.length = l.length - 1 := by
      rw [show l.length - 1 - i + (l.length - 1) = l.length - 1 by omega,
        Nat.mod_eq_of_lt (by omega)]
    have e3 : (l.length - 1 + 1) % l.length = 0 := by
      rw [Nat.sub_add_cancel (by omega), Nat.mod_self]
    rw [e1, e2, e3, show l.length - 1 - i = 0 by omega, Nat.sub_zero]
    ring

theorem shoelaceSum_reverse (l : List RealCoords) :
    shoelaceSum l.reverse = - shoelaceSum l := by
  rcases Nat.eq_zero_or_pos l.length with hn | hn
  · have hl : l = [] := List.length_eq_zero.mp hn
    subst hl
    simp [shoelaceSum]
  · unfold shoelaceSum
    rw [List.length_reverse]
    have h1 : ∑ i in Finset.range l.length, shoelaceTerm l.reverse i =
        ∑ i in Finset.range l.length,
          (fun j => - shoelaceTerm l ((j + (l.length - 1)) % l.length))
            (l.length - 1 - i) := by
      apply Finset.sum_congr rfl
      intro i hi
      rw [Finset.mem_range] at hi
      exact shoelaceTerm_reverse l i hi
    rw [h1, Finset.sum_range_reflect
      (fun j => - shoelaceTerm l ((j + (l.length - 1)) % l.length)) l.length]
    rw [Finset.sum_neg_distrib]
    congr 1
    exact sum_range_cycle_add (shoelaceTerm l) l.length (l.length - 1)

theorem calculatePolygonArea_rotate (l : List RealCoords) (k : ℕ) :
    calculatePolygonArea (l.rotate k) = calculatePolygonArea l := by
  unfold calculatePolygonArea
  rw [List.length_rotate, shoelaceSum_rotate]

theorem calculatePolygonArea_reverse (l : List RealCoords) :
    calculatePolygonArea l.reverse = calculatePolygonArea l := by
  unfold calculatePolygonArea
  rw [List.length_reverse, shoelaceSum_reverse, neg_div, abs_neg]

theorem square_area (s : ℝ) :
    calculatePolygonArea [⟨0, 0⟩, ⟨s, 0⟩, ⟨s, s⟩, ⟨0, s⟩] = s ^ 2 := by
  unfold calculatePolygonArea
  rw [if_neg (by simp)]
  unfold shoelaceSum
  have hL : ([⟨0, 0⟩, ⟨s, 0⟩, ⟨s, s⟩, ⟨0, s⟩] : List RealCoords).length = 4 := rfl
  rw [hL, Finset.sum_range_succ, Finset.sum_range_succ, Finset.sum_range_succ,
    Finset.sum_range_succ, Finset.sum_range_zero]
  have t0 : shoelaceTerm [⟨0, 0⟩, ⟨s, 0⟩, ⟨s, s⟩, ⟨0, s⟩] 0 = 0 := by
    simp [shoelaceTerm, nthRC]
  have t1 : shoelaceTerm [⟨0, 0⟩, ⟨s, 0⟩, ⟨s, s⟩, ⟨0, s⟩] 1 = s * s := by
    simp [shoelaceTerm, nthRC]
  have t2 : shoelaceTerm [⟨0, 0⟩, ⟨s, 0⟩, ⟨s, s⟩, ⟨0, s⟩] 2 = s * s := by
    simp [shoelaceTerm, nthRC]
  have t3 : shoelaceTerm [⟨0, 0⟩, ⟨s, 0⟩, ⟨s, s⟩, ⟨0, s⟩] 3 = 0 := by
    simp [shoelaceTerm, nthRC]
  rw [t0, t1, t2, t3]
  rw [show (0 + 0 + (s * s) + (s * s) + 0) / 2 = s ^ 2 by ring]
  exact abs_of_nonneg (sq_nonneg s)

/-- Claim C6: `calculatePolygonArea` returns the absolute shoelace value
`|Σ (x_i y_{i+1} - x_{i+1} y_i)| / 2` with wraparound indices when the list
has at least three vertices, returns `0` below three vertices, is
non-negative, is invariant under any cyclic rotation of the vertex list
(starting vertex) and under reversal (winding direction), and gives `s²` on
the axis-aligned square of side `s`. -/
theorem polygonArea_spec :
    (∀ l : List RealCoords, 3 ≤ l.length →
      calculatePolygonArea l = |shoelaceSum l| / 2) ∧
    (∀ l : List RealCoords, l.length < 3 → calculatePolygonArea l = 0) ∧
    (∀ l : List RealCoords, 0 ≤ calculatePolygonArea l) ∧
    (∀ (l : List RealCoords) (k : ℕ),
      calculatePolygonArea (l.rotate k) = calculatePolygonArea l) ∧
    (∀ l : List RealCoords,
      calculatePolygonArea l.reverse = calculatePolygonArea l) ∧
    (∀ s : ℝ, calculatePolygonArea [⟨0, 0⟩, ⟨s, 0⟩, ⟨s, s⟩, ⟨0, s⟩] = s ^ 2) := by
  refine ⟨?_, ?_, ?_, calculatePolygonArea_rotate, calculatePolygonArea_reverse,
    square_area⟩
  · intro l hl
    unfold calculatePolygonArea
    rw [if_neg (by omega), abs_div]
    norm_num
  · intro l hl
    unfold calculatePolygonArea
    rw [if_pos hl]
  · intro l
    unfold calculatePolygonArea
    split
    · exact le_refl 0
    · exact abs_nonneg _

/-- Witness for `polygonArea_spec` on the concrete square of side `3`. -/
theorem polygonArea_spec_witness :
    calculatePolygonArea [⟨0, 0⟩, ⟨3, 0⟩, ⟨3, 3⟩, ⟨0, 3⟩] =
      |shoelaceSum [⟨0, 0⟩, ⟨3, 0⟩, ⟨3, 3⟩, ⟨0, 3⟩]| / 2 :=
  polygonArea_spec.1 _ (by norm_num)

/-- Witness for `bearing_formula_amended` at `realCoords = (0, 1)`,
reference direction `0`. -/
theorem bearing_formula_amended_witness :
    (calculateDistanceAndBearing ⟨0, 1⟩ 0).1 = Real.sqrt (0 ^ 2 + 1 ^ 2) ∧
    (calculateDistanceAndBearing ⟨0, 1⟩ 0).2 = specBearing ⟨0, 1⟩ 0 ∧
    calculateRealCoords (some ⟨50, 50⟩) (some 10) ⟨150, 50⟩ = ⟨10, 0⟩ ∧
    (calculateDistanceAndBearing ⟨10, 0⟩ 0).1 = 10 ∧
    (calculateDistanceAndBearing ⟨10, 0⟩ 0).2 = 90 :=
  bearing_formula_amended ⟨0, 1⟩ 0
    (by
      dsimp only
      rw [atan2_zero_one]
      norm_num)

end Mappatore
